import Mathlib

/-!
Shallow embedding of the request-handling pipeline of the `verilab/actix-web`
repository: content-encoding negotiation (`src/middleware/compress.rs`),
responder decoration (`src/responder.rs`), the handler adapter
(`src/handler.rs`), tuple extraction (`src/extract.rs`), the `Either`
combinator (`src/types/either.rs`), form decoding (`src/types/form.rs`) and
the conditional middleware (`src/middleware/condition.rs`), together with
theorems settling the spec's claims about them.

Rust machine values are mapped as follows: `usize` to `Nat`, `f64` quality
weights to exact decimal numbers `num / 10^exp` (the only `f64` operations the
source performs are parsing decimal literals and order comparison; parsing a
short decimal literal to `f64` is injective and monotone, so ordering exact
decimals is a faithful model), byte buffers to `List UInt8`, strings under
tokenization to `List Char`, fallible calls to `Except`, and `async` control
flow — which contains no concurrency inside any one function modelled here —
to plain sequential evaluation.
-/

namespace ActixWeb

/-! ## Content-encoding negotiation (`src/middleware/compress.rs`) -/

/-- The content encodings known to the negotiator (actix-http
`ContentEncoding`): the `Auto` placeholder, the three real codings, and
`Identity`. -/
inductive ContentEncoding where
  | Auto
  | Br
  | Gzip
  | Deflate
  | Identity
deriving DecidableEq

/-- Modelled from the spec: "resolve the named encoding" — the resolution of an
encoding name to a `ContentEncoding` (`ContentEncoding::from(&str)` lives in
actix-http, outside `src/`). Recognised names resolve case-insensitively to
their coding; anything else resolves to `Identity`. -/
def ContentEncoding.ofName (cs : List Char) : ContentEncoding :=
  let l := cs.map Char.toLower
  if l = "br".data then .Br
  else if l = "gzip".data then .Gzip
  else if l = "deflate".data then .Deflate
  else .Identity

/-- Split a character list at every occurrence of `sep`, keeping empty pieces:
the model of Rust `str::split(sep)`. -/
def splitOnChar (sep : Char) : List Char → List (List Char)
  | [] => [[]]
  | c :: rest =>
    let r := splitOnChar sep rest
    if c = sep then [] :: r
    else
      match r with
      | t :: ts => (c :: t) :: ts
      | [] => [[c]]

/-- An exact decimal number `num / 10^exp`, the model of the `f64` quality
weights handled by the negotiator (see the header comment). -/
structure Decimal where
  num : Int
  exp : Nat
deriving DecidableEq

/-- Strict order on the decimal values, by cross-multiplication. -/
def Decimal.lt (a b : Decimal) : Bool :=
  a.num * (10 : Int) ^ b.exp < b.num * (10 : Int) ^ a.exp

/-- Modelled from the spec: the "encoding's intrinsic default weight" used when
a token carries no quality parameter (`ContentEncoding::quality` lives in
actix-http, outside `src/`). -/
def ContentEncoding.quality : ContentEncoding → Decimal
  | .Br => { num := 11, exp := 1 }
  | .Gzip => { num := 10, exp := 1 }
  | .Deflate => { num := 9, exp := 1 }
  | _ => { num := 1, exp := 1 }

/-- The numeric value of a list of decimal digit characters. -/
def digitsVal (cs : List Char) : Nat :=
  cs.foldl (fun n c => n * 10 + (c.toNat - 48)) 0

/-- Models Rust `f64::from_str` on plain decimal literals: an optional sign,
an integer part and an optional fractional part, at least one digit in total.
Exponent, infinity and NaN forms are not modelled; no claim in scope feeds
them to the parser. Any other string — in particular one still carrying a
`q=` prefix — fails to parse, exactly as in Rust. -/
def parseF64 (cs : List Char) : Option Decimal :=
  let core : List Char → Option Decimal := fun cs =>
    let intPart := cs.takeWhile Char.isDigit
    let rest := cs.dropWhile Char.isDigit
    match rest with
    | [] =>
      if intPart.isEmpty then none
      else some { num := (digitsVal intPart : Int), exp := 0 }
    | '.' :: frac =>
      if frac.all Char.isDigit && !(intPart.isEmpty && frac.isEmpty) then
        some { num := (digitsVal (intPart ++ frac) : Int), exp := frac.length }
      else none
    | _ => none
  match cs with
  | '-' :: rest => (core rest).map (fun d => { d with num := -d.num })
  | '+' :: rest => core rest
  | rest => core rest

/-- One parsed `Accept-Encoding` candidate (`AcceptEncoding` in
`compress.rs`): an encoding and its quality weight. -/
structure AcceptEncoding where
  encoding : ContentEncoding
  quality : Decimal
deriving DecidableEq

/-- The `Ord for AcceptEncoding` comparator from `compress.rs`: greater
quality compares as `Less` and smaller quality as `Greater` (the inverted
comparison that makes the ascending sort produce descending quality). -/
def AcceptEncoding.cmp (a b : AcceptEncoding) : Ordering :=
  if Decimal.lt b.quality a.quality then .lt
  else if Decimal.lt a.quality b.quality then .gt
  else .eq

/-- The derived `Ord for Option<AcceptEncoding>` used by `encodings.sort()`:
`None` orders before `Some`, and two `Some`s compare by `AcceptEncoding.cmp`. -/
def optAcceptCmp (a b : Option AcceptEncoding) : Ordering :=
  match a, b with
  | none, none => .eq
  | none, some _ => .lt
  | some _, none => .gt
  | some x, some y => x.cmp y

/-- Insert `x` into `l` before the first element that `x` may precede,
keeping it after every earlier element it ties with. -/
def insertLe (le : α → α → Bool) (x : α) : List α → List α
  | [] => [x]
  | y :: ys => if le x y then x :: y :: ys else y :: insertLe le x ys

/-- Stable ascending sort by `le`. Models Rust `Vec::sort` (a stable sort):
for a comparator arising from a total preorder every stable sort produces the
same list, so a structural insertion sort is an exact model. -/
def sortStable (le : α → α → Bool) : List α → List α
  | [] => []
  | x :: xs => insertLe le x (sortStable le xs)

/-- `AcceptEncoding::new` from `compress.rs`: split the token on `;`, resolve
the encoding from the part before the first `;`, and take the quality from
parsing the *entire* second part (`f64::from_str(parts[1])`) when one exists,
defaulting to `0.0` on parse failure, or the encoding's intrinsic quality when
the token has no parameter. -/
def AcceptEncoding.new (tag : List Char) : Option AcceptEncoding :=
  let parts := splitOnChar ';' tag
  match parts with
  | [] => none
  | p0 :: rest =>
    let encoding := ContentEncoding.ofName p0
    let quality : Decimal :=
      match rest with
      | [] => encoding.quality
      | p1 :: _ => (parseF64 p1).getD { num := 0, exp := 0 }
    some { encoding := encoding, quality := quality }

/-- The selection loop at the end of `AcceptEncoding::parse`: walk the sorted
candidates; in `Auto` mode return the first parsed candidate's encoding, in
forced mode return the forced encoding at the first matching candidate; fall
back to `Identity`. -/
def selectEncoding (encoding : ContentEncoding) :
    List (Option AcceptEncoding) → ContentEncoding
  | [] => .Identity
  | none :: rest => selectEncoding encoding rest
  | some enc :: rest =>
    if encoding = .Auto then enc.encoding
    else if encoding = enc.encoding then encoding
    else selectEncoding encoding rest

/-- `AcceptEncoding::parse` from `compress.rs`: strip spaces, split on commas,
parse each token, stable-sort by the inverted quality comparator, then run the
selection loop. -/
def AcceptEncoding.parse (raw : String) (encoding : ContentEncoding) :
    ContentEncoding :=
  let noSpaces := raw.data.filter (fun c => c ≠ ' ')
  let encodings := (splitOnChar ',' noSpaces).map AcceptEncoding.new
  let sorted := sortStable (fun a b => optAcceptCmp a b ≠ Ordering.gt) encodings
  selectEncoding encoding sorted

/-! ## Responder decoration (`src/responder.rs`) -/

/-- The response surface touched by `CustomResponder`: a status code and the
header collection (name-value pairs; `HeaderMap` iteration order is modelled
as list order, which the spec declares irrelevant). -/
structure MResponse where
  status : Nat
  headers : List (String × String)
  body : String
deriving DecidableEq

/-- `HeaderMap::insert`: drop every existing value for the name, then add the
new pair (last-write-wins per name). -/
def headerMapInsert (hm : List (String × String)) (k v : String) :
    List (String × String) :=
  hm.filter (fun p => p.1 ≠ k) ++ [(k, v)]

/-- `CustomResponder<T>` from `responder.rs`: the inner responder plus the
pending status override, pending appended headers, and the captured header
conversion error. `H` is the header-conversion error type (`HttpError`). -/
structure CustomResponder (T H : Type) where
  responder : T
  status : Option Nat
  headers : Option (List (String × String))
  error : Option H

/-- `CustomResponder::new`. -/
def CustomResponder.new (t : T) : CustomResponder T H :=
  { responder := t, status := none, headers := none, error := none }

/-- `CustomResponder::with_status`. -/
def CustomResponder.withStatus (c : CustomResponder T H) (status : Nat) :
    CustomResponder T H :=
  { c with status := some status }

/-- `CustomResponder::with_header` from `responder.rs`. The header-name and
header-value conversions (`HeaderName::try_from` / `IntoHeaderValue`) are
modelled by their already-computed outcomes `key` and `value`: on success the
pair is appended to the pending headers, on failure the conversion error is
stored into `error`. -/
def CustomResponder.withHeader (c : CustomResponder T H)
    (key : Except H String) (value : Except H String) : CustomResponder T H :=
  let c := if c.headers.isNone then { c with headers := some [] } else c
  match key with
  | .ok k =>
    match value with
    | .ok v => { c with headers := some ((c.headers.getD []) ++ [(k, v)]) }
    | .error e => { c with error := some e }
  | .error e => { c with error := some e }

/-- `Responder for CustomResponder<T>::respond_to` from `responder.rs`: run
the inner responder (its behavior supplied as `respondT`, the `T: Responder`
dictionary), then apply the status override and insert each pending header.
Note that the `error` field is not consulted anywhere in this function,
exactly as in the source. -/
def CustomResponder.respondTo (c : CustomResponder T H)
    (respondT : T → Req → Except E MResponse) (req : Req) :
    Except E MResponse :=
  match respondT c.responder req with
  | .error e => .error e
  | .ok res =>
    let res :=
      match c.status with
      | some s => { res with status := s }
      | none => res
    let res :=
      match c.headers with
      | some hs =>
        hs.foldl (fun r kv => { r with headers := headerMapInsert r.headers kv.1 kv.2 }) res
      | none => res
    .ok res

/-! ## Handler adapter (`src/handler.rs`) -/

/-- `Service::call for Handler` from `handler.rs`, with the generic pieces
supplied as functions: `intoParts` splits the `ServiceRequest`, `extract` is
the tuple extraction (`T::from_request`), `handle` the application function,
`respondTo` the `Responder` dictionary of the return type, `intoErr` the
responder-error conversion into the uniform error, `errToResponse` the
uniform error's conversion into a response, and `mkServiceResponse` /
`errorResponse` build the two kinds of `ServiceResponse`. -/
def handlerCall
    (intoParts : SReq → Req × Payload)
    (extract : Req → Payload → Except Err T)
    (handle : T → O)
    (respondTo : O → Req → Except RErr Response)
    (intoErr : RErr → Err)
    (errToResponse : Err → Response)
    (mkServiceResponse : Req → Response → SResp)
    (errorResponse : Req → Err → SResp)
    (sreq : SReq) : Except Err SResp :=
  let (req, payload) := intoParts sreq
  match extract req payload with
  | .ok item =>
    let res :=
      match respondTo (handle item) req with
      | .ok r => r
      | .error e => errToResponse (intoErr e)
    .ok (mkServiceResponse req res)
  | .error e => .ok (errorResponse req e)

/-! ## Tuple extraction (`src/extract.rs`, `tuple_from_req!`) -/

/-- The `FromRequest` implementation generated by `tuple_from_req!` for pairs:
run the first member's extraction on the request and the payload, mapping its
error into the uniform error and short-circuiting on failure; then run the
second member's extraction on the payload state the first one left behind.
Each member extractor is modelled as a function from the request and the
payload state to either an error or a value together with the payload state
it leaves behind (the `&mut Payload` threading). -/
def tuple2FromReq
    (f1 : E1 → Err) (f2 : E2 → Err)
    (e1 : Req → Payload → Except E1 (A × Payload))
    (e2 : Req → Payload → Except E2 (B × Payload))
    (req : Req) (p : Payload) : Except Err ((A × B) × Payload) :=
  match e1 req p with
  | .error e => .error (f1 e)
  | .ok (a, p1) =>
    match e2 req p1 with
    | .error e => .error (f2 e)
    | .ok (b, p2) => .ok ((a, b), p2)

/-- The `tuple_from_req!` implementation for triples, as `tuple2FromReq`. -/
def tuple3FromReq
    (f1 : E1 → Err) (f2 : E2 → Err) (f3 : E3 → Err)
    (e1 : Req → Payload → Except E1 (A × Payload))
    (e2 : Req → Payload → Except E2 (B × Payload))
    (e3 : Req → Payload → Except E3 (C × Payload))
    (req : Req) (p : Payload) : Except Err ((A × B × C) × Payload) :=
  match e1 req p with
  | .error e => .error (f1 e)
  | .ok (a, p1) =>
    match e2 req p1 with
    | .error e => .error (f2 e)
    | .ok (b, p2) =>
      match e3 req p2 with
      | .error e => .error (f3 e)
      | .ok (c, p3) => .ok ((a, b, c), p3)

/-- The `tuple_from_req!` implementation for the largest generated arity,
ten members, as `tuple2FromReq`. -/
def tuple10FromReq
    (f1 : E1 → Err) (f2 : E2 → Err) (f3 : E3 → Err) (f4 : E4 → Err)
    (f5 : E5 → Err) (f6 : E6 → Err) (f7 : E7 → Err) (f8 : E8 → Err)
    (f9 : E9 → Err) (f10 : E10 → Err)
    (e1 : Req → Payload → Except E1 (A1 × Payload))
    (e2 : Req → Payload → Except E2 (A2 × Payload))
    (e3 : Req → Payload → Except E3 (A3 × Payload))
    (e4 : Req → Payload → Except E4 (A4 × Payload))
    (e5 : Req → Payload → Except E5 (A5 × Payload))
    (e6 : Req → Payload → Except E6 (A6 × Payload))
    (e7 : Req → Payload → Except E7 (A7 × Payload))
    (e8 : Req → Payload → Except E8 (A8 × Payload))
    (e9 : Req → Payload → Except E9 (A9 × Payload))
    (e10 : Req → Payload → Except E10 (A10 × Payload))
    (req : Req) (p : Payload) :
    Except Err ((A1 × A2 × A3 × A4 × A5 × A6 × A7 × A8 × A9 × A10) × Payload) :=
  match e1 req p with
  | .error e => .error (f1 e)
  | .ok (a1, p1) =>
    match e2 req p1 with
    | .error e => .error (f2 e)
    | .ok (a2, p2) =>
      match e3 req p2 with
      | .error e => .error (f3 e)
      | .ok (a3, p3) =>
        match e4 req p3 with
        | .error e => .error (f4 e)
        | .ok (a4, p4) =>
          match e5 req p4 with
          | .error e => .error (f5 e)
          | .ok (a5, p5) =>
            match e6 req p5 with
            | .error e => .error (f6 e)
            | .ok (a6, p6) =>
              match e7 req p6 with
              | .error e => .error (f7 e)
              | .ok (a7, p7) =>
                match e8 req p7 with
                | .error e => .error (f8 e)
                | .ok (a8, p8) =>
                  match e9 req p8 with
                  | .error e => .error (f9 e)
                  | .ok (a9, p9) =>
                    match e10 req p9 with
                    | .error e => .error (f10 e)
                    | .ok (a10, p10) =>
                      .ok ((a1, a2, a3, a4, a5, a6, a7, a8, a9, a10), p10)

/-! ## The `Either<A, B>` combinator (`src/types/either.rs`) -/

/-- `Either<A, B>` from `either.rs`. -/
inductive Either (A B : Type) where
  | A (a : A)
  | B (b : B)
deriving DecidableEq

/-- `EitherExtractError<A, B>` from `either.rs`: either a payload-buffering
error (already a uniform error) or the pair of the primary extractor's error
and the fallback extractor's error. -/
inductive EitherExtractError (Err EA EB : Type) where
  | Bytes (e : Err)
  | Extract (aErr : EA) (bErr : EB)
deriving DecidableEq

/-- `Into<Error> for EitherExtractError` from `either.rs`. `fa` and `fb` are
the `A: Into<Error>` and `B: Into<Error>` dictionaries required by the
implementation; the `Extract` arm converts only the primary error and ignores
the fallback error entirely. -/
def EitherExtractError.intoError (fa : EA → Err) (fb : EB → Err) :
    EitherExtractError Err EA EB → Err
  | .Bytes err => err
  | .Extract aErr _bErr => fa aErr

/-- `bytes_to_a_or_b` from `either.rs`: keep a second handle on the buffered
bytes (`bytes.clone()`), try the primary extraction against a payload
reconstructed from the bytes, and on failure try the fallback extraction
against a payload reconstructed from the clone; if both fail combine the two
errors. `payloadFromBytes` models `payload_from_bytes`. -/
def bytesToAorB
    (fa : Req → Payload → Except EA A)
    (fb : Req → Payload → Except EB B)
    (payloadFromBytes : Bytes → Payload)
    (req : Req) (bytes : Bytes) :
    Except (EitherExtractError Err EA EB) (Either A B) :=
  let fallback := bytes
  match fa req (payloadFromBytes bytes) with
  | .ok aData => .ok (.A aData)
  | .error aErr =>
    match fb req (payloadFromBytes fallback) with
    | .ok bData => .ok (.B bData)
    | .error bErr => .error (.Extract aErr bErr)

/-- `FromRequest for Either<A, B>::from_request` from `either.rs`: buffer the
whole body (`Bytes::from_request`, supplied as `bytesFromRequest`), wrapping a
buffering failure in `EitherExtractError::Bytes`, then hand the bytes to
`bytesToAorB`. -/
def eitherFromRequest
    (bytesFromRequest : Req → Payload → Except Err Bytes)
    (fa : Req → Payload → Except EA A)
    (fb : Req → Payload → Except EB B)
    (payloadFromBytes : Bytes → Payload)
    (req : Req) (payload : Payload) :
    Except (EitherExtractError Err EA EB) (Either A B) :=
  match bytesFromRequest req payload with
  | .error e => .error (.Bytes e)
  | .ok bytes => bytesToAorB fa fb payloadFromBytes req bytes

/-! ## Form decoding (`src/types/form.rs`) -/

/-- The errors of `UrlencodedError` reachable in this model. The
`Payload`-wrapping variant (transport errors surfaced by `chunk?`) is not
modelled: stream chunks are taken as pure byte lists, which no claim in scope
depends on. -/
inductive UrlencodedError where
  | ContentType
  | UnknownLength
  | Overflow (size : Nat) (limit : Nat)
  | Parse
deriving DecidableEq

/-- The text encoding resolved by `req.encoding()`: the claims only need to
distinguish UTF-8 (the default) from any other successfully resolved
encoding. -/
inductive TextEncoding where
  | utf8
  | other
deriving DecidableEq

/-- The request surface consulted by `UrlEncoded::new`: the content type, the
resolved text encoding (`none` models `req.encoding()` failing), and the raw
`content-length` header value when present. -/
structure FormRequest where
  contentType : String
  encoding : Option TextEncoding
  contentLength : Option String
deriving DecidableEq

/-- Models `str::parse::<usize>` on a header value: all-digit strings parse to
their value. (Machine-width overflow is not modelled; no claim in scope feeds
a value near `usize::MAX`.) -/
def parseUsize (cs : List Char) : Option Nat :=
  if cs ≠ [] ∧ cs.all Char.isDigit then some (digitsVal cs) else none

/-- The deserialization dictionary used at end of stream: `fromBytes` models
`serde_urlencoded::from_bytes`, `fromStr` models `serde_urlencoded::from_str`,
and `charsetDecode` models the non-UTF-8 charset decoding
(`decode_without_bom_handling_and_without_replacement`). -/
structure Deserializer (U : Type) where
  fromBytes : List UInt8 → Option U
  fromStr : List Char → Option U
  charsetDecode : List UInt8 → Option (List Char)

/-- The `UrlEncoded<U>` future's state: an eager error, or the body state
carrying the size limit, the declared length, the resolved encoding and the
accumulation buffer (the stream itself is passed separately at run time). -/
inductive UrlEncoded where
  | Error (e : UrlencodedError)
  | Body (limit : Nat) (length : Option Nat) (encoding : TextEncoding)
      (buf : List UInt8)
deriving DecidableEq

/-- `UrlEncoded::new` from `form.rs`: reject a content type other than the
URL-encoded media type (case-insensitively); reject when the text encoding
cannot be resolved; with the decoder-level limit fixed at 32768, reject a
declared content-length that fails to parse (`UnknownLength`) or exceeds that
limit (`Overflow` carrying the declared size and 32768); otherwise enter the
`Body` state with an empty buffer. -/
def UrlEncoded.new (req : FormRequest) : UrlEncoded :=
  if req.contentType.data.map Char.toLower ≠
      "application/x-www-form-urlencoded".data then
    .Error .ContentType
  else
    match req.encoding with
    | none => .Error .ContentType
    | some enc =>
      let limit := 32768
      match req.contentLength with
      | none => .Body limit none enc []
      | some s =>
        match parseUsize s.data with
        | none => .Error .UnknownLength
        | some l =>
          if l > limit then .Error (.Overflow l limit)
          else .Body limit (some l) enc []

/-- `UrlEncoded::limit` from `form.rs`: in the `Body` state, reject a declared
length exceeding the new limit (`Overflow` carrying the declared size and the
new limit), otherwise replace the stored limit — unconditionally, with no
comparison against the previous 32768 — and keep an eager error unchanged. -/
def UrlEncoded.limit (u : UrlEncoded) (limit : Nat) : UrlEncoded :=
  match u with
  | .Body _ length encoding buf =>
    match length with
    | some len =>
      if len > limit then .Error (.Overflow len limit)
      else .Body limit length encoding buf
    | none => .Body limit length encoding buf
  | _ => u

/-- The end-of-stream decode in `Future for UrlEncoded::poll`: UTF-8 bodies go
through `fromBytes`; other encodings are first charset-decoded and then go
through `fromStr`; every failure is `Parse`. -/
def urlEncodedDecode (de : Deserializer U) (encoding : TextEncoding)
    (buf : List UInt8) : Except UrlencodedError U :=
  match encoding with
  | .utf8 =>
    match de.fromBytes buf with
    | some u => .ok u
    | none => .error .Parse
  | .other =>
    match de.charsetDecode buf with
    | none => .error .Parse
    | some s =>
      match de.fromStr s with
      | some u => .ok u
      | none => .error .Parse

/-- The chunk loop of `Future for UrlEncoded::poll`: for each arriving chunk,
fail with `Overflow` (carrying the would-be total and the stored limit) as
soon as the accumulated length plus the chunk length exceeds the stored
limit, otherwise append the chunk to the buffer; at end of stream decode the
buffer. -/
def urlEncodedLoop (de : Deserializer U) (limit : Nat) (encoding : TextEncoding)
    (buf : List UInt8) : List (List UInt8) → Except UrlencodedError U
  | [] => urlEncodedDecode de encoding buf
  | chunk :: rest =>
    if buf.length + chunk.length > limit then
      .error (.Overflow (buf.length + chunk.length) limit)
    else urlEncodedLoop de limit encoding (buf ++ chunk) rest

/-- Running the `UrlEncoded` future against a stream of chunks: an eager error
resolves immediately without consuming the stream; a `Body` state runs the
chunk loop. -/
def urlEncodedRun (de : Deserializer U) (u : UrlEncoded)
    (chunks : List (List UInt8)) : Except UrlencodedError U :=
  match u with
  | .Error e => .error e
  | .Body limit _ encoding buf => urlEncodedLoop de limit encoding buf chunks

/-- `FormConfig` from `form.rs`: the configured size limit and the optional
custom error-mapping function (which receives the current request). -/
structure FormConfig (Err : Type) where
  limit : Nat
  errHandler : Option (UrlencodedError → FormRequest → Err)

/-- `FormConfig::default`: limit 16384, no error handler. -/
def FormConfig.mkDefault : FormConfig Err :=
  { limit := 16384, errHandler := none }

/-- `Form<T>` from `form.rs`. -/
structure Form (U : Type) where
  val : U
deriving DecidableEq

/-- `FromRequest for Form<T>::from_request` from `form.rs`: look up the
per-route configuration (falling back to limit 16384 and no error handler),
build `UrlEncoded::new(req, payload).limit(limit)`, run it against the body
stream, and map a decoding failure through the custom error handler when one
is installed, otherwise through the standard conversion `intoErr`. -/
def formFromRequest (config : Option (FormConfig Err))
    (intoErr : UrlencodedError → Err) (de : Deserializer U)
    (req : FormRequest) (chunks : List (List UInt8)) : Except Err (Form U) :=
  let pair :=
    match config with
    | some c => (c.limit, c.errHandler)
    | none => (16384, none)
  let limit := pair.1
  let errH := pair.2
  match urlEncodedRun de ((UrlEncoded.new req).limit limit) chunks with
  | .ok item => .ok { val := item }
  | .error e =>
    match errH with
    | some h => .error (h e req)
    | none => .error (intoErr e)

/-- The response produced by the `Form` responder: status, the content type
set by `.set(ContentType::form_url_encoded())`, and the body string. -/
structure FormResponse where
  status : Nat
  contentType : String
  body : String
deriving DecidableEq

/-- The error alphabet for the form round trip: a decoding error or the
serialization failure of the responder. -/
inductive FormError where
  | urlencoded (e : UrlencodedError)
  | serialize
deriving DecidableEq

/-- `Responder for Form<T>::respond_to` from `form.rs`: serialize the value
(`serde_urlencoded::to_string`, modelled by `ser`), failing on serialization
error, otherwise respond with status 200, the URL-encoded content type and
the serialized body. -/
def formRespondTo (ser : U → Option String) (form : Form U) :
    Except FormError FormResponse :=
  match ser form.val with
  | none => .error .serialize
  | some body =>
    .ok { status := 200, contentType := "application/x-www-form-urlencoded",
          body := body }

/-- UTF-8 encoding of one character (the standard 1–4 byte scheme), used to
turn the responder's body string into the byte stream the extractor reads. -/
def utf8EncodeChar (c : Char) : List UInt8 :=
  let v := c.toNat
  if v < 128 then [UInt8.ofNat v]
  else if v < 2048 then
    [UInt8.ofNat (192 + v / 64), UInt8.ofNat (128 + v % 64)]
  else if v < 65536 then
    [UInt8.ofNat (224 + v / 4096), UInt8.ofNat (128 + v / 64 % 64),
     UInt8.ofNat (128 + v % 64)]
  else
    [UInt8.ofNat (240 + v / 262144), UInt8.ofNat (128 + v / 4096 % 64),
     UInt8.ofNat (128 + v / 64 % 64), UInt8.ofNat (128 + v % 64)]

/-- UTF-8 bytes of a string. -/
def utf8Bytes (s : String) : List UInt8 :=
  (s.data.map utf8EncodeChar).flatten

/-- The round trip of the spec's §8 law: serialize a value through the `Form`
responder, then feed the response's content type and body — as a single-chunk
UTF-8 byte stream with no declared content-length — back through the `Form`
extractor under the default configuration. -/
def formRoundTrip (ser : U → Option String) (de : Deserializer U) (v : U) :
    Except FormError (Form U) :=
  match formRespondTo ser { val := v } with
  | .error e => .error e
  | .ok resp =>
    let req : FormRequest :=
      { contentType := resp.contentType, encoding := some .utf8,
        contentLength := none }
    formFromRequest none FormError.urlencoded de req [utf8Bytes resp.body]

/-- Total length in bytes of a list of chunks. -/
def sumLen (l : List (List UInt8)) : Nat :=
  (l.map List.length).sum

/-- A deserializer that accepts every body, used to observe the size checks in
isolation. -/
def deTrivial : Deserializer Unit :=
  { fromBytes := fun _ => some (), fromStr := fun _ => some (),
    charsetDecode := fun _ => some [] }

/-- A concrete serializer for `String` values: the URL-encoded rendering of a
single field named `v` holding an ASCII value. -/
def serV (t : String) : Option String :=
  some ("v=" ++ t)

/-- The deserializer inverse to `serV` on ASCII values: a body of the form
`v=<ascii bytes>` decodes to the value. -/
def deV : Deserializer String :=
  { fromBytes := fun bs =>
      match bs with
      | b0 :: b1 :: rest =>
        if b0 = 118 ∧ b1 = 61 ∧ rest.all (fun b => b.toNat < 128) then
          some (String.mk (rest.map (fun b => Char.ofNat b.toNat)))
        else none
      | _ => none,
    fromStr := fun _ => none,
    charsetDecode := fun _ => none }

/-! ## Conditional middleware (`src/middleware/condition.rs`) -/

/-- `Poll` from the task system: ready with a value, or pending. -/
inductive MPoll (α : Type) where
  | Ready (a : α)
  | Pending
deriving DecidableEq

/-- A `Service` in the composition model: readiness reporting (per polling
context) and the per-request outcome. The request future is modelled by its
eventual outcome. -/
structure MService (Ctx Req Resp Err : Type) where
  pollReady : Ctx → MPoll (Except Err Unit)
  call : Req → Except Err Resp

/-- A `Transform`: the factory producing a wrapping service from an inner
service, fallible with a distinct initialization error type. -/
structure MTransform (Ctx Req Resp Err InitErr : Type) where
  newTransform : MService Ctx Req Resp Err →
    Except InitErr (MService Ctx Req Resp Err)

/-- `ConditionMiddleware<E, D>` from `condition.rs`. -/
inductive ConditionMiddleware (E D : Type) where
  | Enable (service : E)
  | Disable (service : D)

/-- `Service::poll_ready for ConditionMiddleware`: delegate to whichever
branch is present. -/
def conditionPollReady
    (m : ConditionMiddleware (MService Ctx Req Resp Err) (MService Ctx Req Resp Err))
    (cx : Ctx) : MPoll (Except Err Unit) :=
  match m with
  | .Enable service => service.pollReady cx
  | .Disable service => service.pollReady cx

/-- `Service::call for ConditionMiddleware`: delegate to whichever branch is
present. (The source stages the two branches through a pair of `Option`s
consumed inside the returned `async` block; that staging computes exactly the
delegated call.) -/
def conditionCall
    (m : ConditionMiddleware (MService Ctx Req Resp Err) (MService Ctx Req Resp Err))
    (req : Req) : Except Err Resp :=
  match m with
  | .Enable service => service.call req
  | .Disable service => service.call req

/-- `Transform::new_transform for Condition` from `condition.rs`: with the
flag set, run the inner transform's construction and wrap its output in
`Enable` (propagating its initialization error); with the flag clear, wrap
the untouched inner service in `Disable`. (The source stages the branches
through `left`/`right` options resolved in an `async` block; that staging
computes exactly this case split.) -/
def conditionNewTransform (enable : Bool)
    (trans : MTransform Ctx Req Resp Err InitErr)
    (service : MService Ctx Req Resp Err) :
    Except InitErr
      (ConditionMiddleware (MService Ctx Req Resp Err) (MService Ctx Req Resp Err)) :=
  if enable then
    match trans.newTransform service with
    | .ok res => .ok (.Enable res)
    | .error e => .error e
  else
    .ok (.Disable service)

/-! ## Helper lemmas -/

/-- Flattening `n` copies of a singleton gives `n` copies of its element. -/
theorem flatten_replicate_singleton (n : Nat) (x : α) :
    (List.replicate n [x]).flatten = List.replicate n x := by
  induction n with
  | zero => rfl
  | succ k ih => simp [List.replicate_succ, ih]

/-- `List.all` holds on a replicated list whose element satisfies the
predicate. -/
theorem all_replicate_of_pred (n : Nat) (x : α) (p : α → Bool) (h : p x = true) :
    (List.replicate n x).all p = true := by
  induction n with
  | zero => rfl
  | succ k ih => simp [List.replicate_succ, List.all_cons, h, ih]

/-- `sumLen` distributes over cons. -/
theorem sumLen_cons (x : List UInt8) (l : List (List UInt8)) :
    sumLen (x :: l) = x.length + sumLen l := by
  simp [sumLen]

/-- `sumLen` of the empty chunk list. -/
theorem sumLen_nil : sumLen [] = 0 := rfl

/-- The chunk loop rejects exactly at the first chunk that pushes the running
total past the limit, with the would-be total in the error, regardless of
what follows. -/
theorem urlEncodedLoop_overflow (U : Type) (de : Deserializer U) (limit : Nat)
    (enc : TextEncoding) :
    ∀ (pre : List (List UInt8)) (buf c : List UInt8)
      (post : List (List UInt8)),
      (∀ i, i < pre.length →
        buf.length + sumLen (List.take (i + 1) pre) ≤ limit) →
      buf.length + sumLen pre + c.length > limit →
      urlEncodedLoop de limit enc buf (pre ++ c :: post) =
        .error (.Overflow (buf.length + sumLen pre + c.length) limit) := by
  intro pre
  induction pre with
  | nil =>
    intro buf c post _hpre hover
    rw [sumLen_nil] at hover ⊢
    rw [List.nil_append]
    unfold urlEncodedLoop
    rw [if_pos (by omega)]
    simp
  | cons q pre ih =>
    intro buf c post hpre hover
    have hq : buf.length + q.length ≤ limit := by
      have := hpre 0 (by simp)
      simpa [sumLen_cons] using this
    show urlEncodedLoop de limit enc buf (q :: (pre ++ c :: post)) = _
    unfold urlEncodedLoop
    rw [if_neg (by omega)]
    have h1 : ∀ i, i < pre.length →
        (buf ++ q).length + sumLen (List.take (i + 1) pre) ≤ limit := by
      intro i hi
      have := hpre (i + 1) (by simpa using Nat.succ_lt_succ hi)
      rw [List.take_succ_cons, sumLen_cons] at this
      rw [List.length_append]
      omega
    have h2 : (buf ++ q).length + sumLen pre + c.length > limit := by
      rw [sumLen_cons] at hover
      rw [List.length_append]
      omega
    have := ih (buf ++ q) c post h1 h2
    rw [this]
    rw [sumLen_cons, List.length_append]
    have : buf.length + q.length + sumLen pre + c.length =
        buf.length + (q.length + sumLen pre) + c.length := by omega
    rw [this]

/-! ## Claim theorems -/

/-- C1: the claim asserts that with the middleware in auto mode the header
`gzip;q=0.5, br;q=0.8` negotiates `br`. On the code it negotiates `gzip`:
`AcceptEncoding::new` feeds the entire parameter `q=0.5` to the float parser,
which fails, so both candidates receive weight `0.0`; the stable sort then
keeps header order and auto mode returns the first candidate, `gzip`. This
theorem evaluates the embedded negotiation at the failing input and records
the two parsed weights. -/
theorem C1_auto_negotiation_selects_gzip_not_br :
    AcceptEncoding.parse "gzip;q=0.5, br;q=0.8" ContentEncoding.Auto =
      ContentEncoding.Gzip ∧
    AcceptEncoding.parse "gzip;q=0.5, br;q=0.8" ContentEncoding.Auto ≠
      ContentEncoding.Br ∧
    AcceptEncoding.new "gzip;q=0.5".data =
      some { encoding := .Gzip, quality := { num := 0, exp := 0 } } ∧
    AcceptEncoding.new "br;q=0.8".data =
      some { encoding := .Br, quality := { num := 0, exp := 0 } } ∧
    parseF64 "q=0.8".data = none := by
  refine ⟨by decide, by decide, by decide, by decide, by decide⟩

/-- C2: the claim asserts that a failed header conversion recorded by
`with_header` is surfaced when `respond_to` runs. On the code it is not:
`with_header` stores the failure into the `error` field, but `respond_to`
never consults that field, so the decorated response is produced successfully
with the header silently missing. The first two conjuncts evaluate a
decorated responder whose header-name conversion failed; the third shows
`respond_to` is entirely independent of the `error` field. -/
theorem C2_with_header_error_never_surfaced :
    (((CustomResponder.new "test" : CustomResponder String Unit).withHeader
        (.error ()) (.ok "1.2.3")).error = some ()) ∧
    (((CustomResponder.new "test" : CustomResponder String Unit).withHeader
        (.error ()) (.ok "1.2.3")).respondTo
        (fun s _r => (.ok { status := 200, headers := [], body := s } :
          Except Unit MResponse)) (0 : Nat) =
      .ok { status := 200, headers := [], body := "test" }) ∧
    (∀ (T H Req E : Type) (c : CustomResponder T H) (x : Option H)
        (respondT : T → Req → Except E MResponse) (req : Req),
      CustomResponder.respondTo { c with error := x } respondT req =
        c.respondTo respondT req) := by
  refine ⟨rfl, rfl, fun T H Req E c x respondT req => rfl⟩

/-- C3: every invocation of the handler adapter's service yields a success:
an extraction failure is short-circuited to the error response without the
application function influencing the outcome, and a responder failure is
converted into a response; in all cases the service outcome is `ok`. -/
theorem C3_handler_service_always_succeeds
    (SReq Req Payload T O RErr Response SResp Err : Type)
    (intoParts : SReq → Req × Payload)
    (extract : Req → Payload → Except Err T)
    (handle : T → O)
    (respondTo : O → Req → Except RErr Response)
    (intoErr : RErr → Err)
    (errToResponse : Err → Response)
    (mkServiceResponse : Req → Response → SResp)
    (errorResponse : Req → Err → SResp)
    (sreq : SReq) :
    ((handlerCall intoParts extract handle respondTo intoErr errToResponse
        mkServiceResponse errorResponse sreq).isOk = true) ∧
    (∀ e, extract (intoParts sreq).1 (intoParts sreq).2 = .error e →
      (handlerCall intoParts extract handle respondTo intoErr errToResponse
          mkServiceResponse errorResponse sreq =
        .ok (errorResponse (intoParts sreq).1 e)) ∧
      (∀ (handle2 : T → O) (respondTo2 : O → Req → Except RErr Response),
        handlerCall intoParts extract handle2 respondTo2 intoErr errToResponse
            mkServiceResponse errorResponse sreq =
          handlerCall intoParts extract handle respondTo intoErr errToResponse
            mkServiceResponse errorResponse sreq)) ∧
    (∀ item e, extract (intoParts sreq).1 (intoParts sreq).2 = .ok item →
      respondTo (handle item) (intoParts sreq).1 = .error e →
      handlerCall intoParts extract handle respondTo intoErr errToResponse
          mkServiceResponse errorResponse sreq =
        .ok (mkServiceResponse (intoParts sreq).1
          (errToResponse (intoErr e)))) := by
  refine ⟨?_, ?_, ?_⟩
  · unfold handlerCall
    cases h : extract (intoParts sreq).1 (intoParts sreq).2 <;>
      simp [h, Except.isOk, Except.toBool]
  · intro e he
    constructor
    · unfold handlerCall
      simp [he]
    · intro handle2 respondTo2
      unfold handlerCall
      simp [he]
  · intro item e hitem hresp
    unfold handlerCall
    simp [hitem, hresp]

/-- C3 witness: at a concrete failing extraction the handler service still
succeeds, producing the error response. -/
theorem C3_handler_service_always_succeeds_witness :
    handlerCall (fun u : Unit => (u, u)) (fun _ _ => (.error 7 : Except Nat Nat))
        (fun n => n) (fun o _ => (.ok o : Except Nat Nat)) (fun e => e)
        (fun e => e) (fun _ r => r) (fun _ e => e + 100) () =
      .ok 107 :=
  ((C3_handler_service_always_succeeds Unit Unit Unit Nat Nat Nat Nat Nat Nat
      (fun u => (u, u)) (fun _ _ => .error 7) (fun n => n) (fun o _ => .ok o)
      (fun e => e) (fun e => e) (fun _ r => r) (fun _ e => e + 100) ()).2.1
    7 rfl).1

/-- C4: tuple extraction runs members strictly left to right — each member
sees the payload state left by its predecessor — and short-circuits on the
first member failure, mapping that member's error into the uniform error.
When the first member succeeds and the second fails, the result is the second
member's mapped error, and every later member is irrelevant to the outcome
(it is never run), at arity three and at the largest generated arity, ten. -/
theorem C4_tuple_extraction_left_to_right_short_circuit
    (Req Payload A B C E1 E2 E3 Err : Type)
    (f1 : E1 → Err) (f2 : E2 → Err) (f3 : E3 → Err)
    (e1 : Req → Payload → Except E1 (A × Payload))
    (e2 : Req → Payload → Except E2 (B × Payload))
    (req : Req) (p : Payload) (a : A) (p1 : Payload) (err : E2)
    (h1 : e1 req p = .ok (a, p1))
    (h2 : e2 req p1 = .error err) :
    (∀ (e3 : Req → Payload → Except E3 (C × Payload)),
      tuple3FromReq f1 f2 f3 e1 e2 e3 req p = .error (f2 err)) ∧
    (∀ (A3 A4 A5 A6 A7 A8 A9 A10 E4 E5 E6 E7 E8 E9 E10 : Type)
      (f3b : E3 → Err) (f4 : E4 → Err) (f5 : E5 → Err) (f6 : E6 → Err)
      (f7 : E7 → Err) (f8 : E8 → Err) (f9 : E9 → Err) (f10 : E10 → Err)
      (e3 : Req → Payload → Except E3 (A3 × Payload))
      (e4 : Req → Payload → Except E4 (A4 × Payload))
      (e5 : Req → Payload → Except E5 (A5 × Payload))
      (e6 : Req → Payload → Except E6 (A6 × Payload))
      (e7 : Req → Payload → Except E7 (A7 × Payload))
      (e8 : Req → Payload → Except E8 (A8 × Payload))
      (e9 : Req → Payload → Except E9 (A9 × Payload))
      (e10 : Req → Payload → Except E10 (A10 × Payload)),
      tuple10FromReq f1 f2 f3b f4 f5 f6 f7 f8 f9 f10
          e1 e2 e3 e4 e5 e6 e7 e8 e9 e10 req p = .error (f2 err)) := by
  constructor
  · intro e3
    unfold tuple3FromReq
    simp [h1, h2]
  · intro A3 A4 A5 A6 A7 A8 A9 A10 E4 E5 E6 E7 E8 E9 E10
      f3b f4 f5 f6 f7 f8 f9 f10 e3 e4 e5 e6 e7 e8 e9 e10
    unfold tuple10FromReq
    simp [h1, h2]

/-- C4 witness: a concrete failing second member short-circuits extraction at
arity three and at arity ten. -/
theorem C4_tuple_extraction_left_to_right_short_circuit_witness :
    tuple3FromReq (fun e : Nat => e) (fun e : Nat => e) (fun e : Nat => e)
        (fun _ n => .ok (n + 1, n + 1))
        (fun _ _ => (.error 5 : Except Nat (Nat × Nat)))
        (fun _ n => (.ok (n, n) : Except Nat (Nat × Nat))) 0 0 = .error 5 ∧
    tuple10FromReq (fun e : Nat => e) (fun e : Nat => e) (fun e : Nat => e)
        (fun e : Nat => e) (fun e : Nat => e) (fun e : Nat => e)
        (fun e : Nat => e) (fun e : Nat => e) (fun e : Nat => e)
        (fun e : Nat => e)
        (fun _ n => .ok (n + 1, n + 1))
        (fun _ _ => (.error 5 : Except Nat (Nat × Nat)))
        (fun _ n => (.ok (n, n) : Except Nat (Nat × Nat)))
        (fun _ n => (.ok (n, n) : Except Nat (Nat × Nat)))
        (fun _ n => (.ok (n, n) : Except Nat (Nat × Nat)))
        (fun _ n => (.ok (n, n) : Except Nat (Nat × Nat)))
        (fun _ n => (.ok (n, n) : Except Nat (Nat × Nat)))
        (fun _ n => (.ok (n, n) : Except Nat (Nat × Nat)))
        (fun _ n => (.ok (n, n) : Except Nat (Nat × Nat)))
        (fun _ n => (.ok (n, n) : Except Nat (Nat × Nat))) 0 0 = .error 5 := by
  have h := C4_tuple_extraction_left_to_right_short_circuit
    Nat Nat Nat Nat Nat Nat Nat Nat Nat
    (fun e => e) (fun e => e) (fun e => e)
    (fun _ n => .ok (n + 1, n + 1))
    (fun _ _ => (.error 5 : Except Nat (Nat × Nat)))
    0 0 1 1 5 rfl rfl
  exact ⟨h.1 (fun _ n => .ok (n, n)),
    h.2 Nat Nat Nat Nat Nat Nat Nat Nat Nat Nat Nat Nat Nat Nat Nat
      (fun e => e) (fun e => e) (fun e => e) (fun e => e) (fun e => e)
      (fun e => e) (fun e => e) (fun e => e)
      (fun _ n => .ok (n, n)) (fun _ n => .ok (n, n)) (fun _ n => .ok (n, n))
      (fun _ n => .ok (n, n)) (fun _ n => .ok (n, n)) (fun _ n => .ok (n, n))
      (fun _ n => .ok (n, n)) (fun _ n => .ok (n, n))⟩

/-- C5: `Either<A, B>` extraction buffers the body first — a buffering
failure is the `Bytes` error; then the primary extraction runs against a
payload reconstructed from the buffered bytes, and on success the result is
the `A` branch; otherwise the fallback extraction runs against an independent
payload reconstructed from the same bytes, and on success the result is the
`B` branch; when both fail the result is the composite error carrying both
underlying errors. -/
theorem C5_either_extraction_cases
    (Req Payload Bytes A B EA EB Err : Type)
    (bytesFromRequest : Req → Payload → Except Err Bytes)
    (fa : Req → Payload → Except EA A)
    (fb : Req → Payload → Except EB B)
    (payloadFromBytes : Bytes → Payload)
    (req : Req) (payload : Payload) :
    (∀ e, bytesFromRequest req payload = .error e →
      eitherFromRequest bytesFromRequest fa fb payloadFromBytes req payload =
        .error (.Bytes e)) ∧
    (∀ bytes a, bytesFromRequest req payload = .ok bytes →
      fa req (payloadFromBytes bytes) = .ok a →
      eitherFromRequest bytesFromRequest fa fb payloadFromBytes req payload =
        .ok (.A a)) ∧
    (∀ bytes ea b, bytesFromRequest req payload = .ok bytes →
      fa req (payloadFromBytes bytes) = .error ea →
      fb req (payloadFromBytes bytes) = .ok b →
      eitherFromRequest bytesFromRequest fa fb payloadFromBytes req payload =
        .ok (.B b)) ∧
    (∀ bytes ea eb, bytesFromRequest req payload = .ok bytes →
      fa req (payloadFromBytes bytes) = .error ea →
      fb req (payloadFromBytes bytes) = .error eb →
      eitherFromRequest bytesFromRequest fa fb payloadFromBytes req payload =
        .error (.Extract ea eb)) := by
  refine ⟨?_, ?_, ?_, ?_⟩
  · intro e he
    unfold eitherFromRequest
    simp [he]
  · intro bytes a hb ha
    unfold eitherFromRequest bytesToAorB
    simp [hb, ha]
  · intro bytes ea b hb ha hbo
    unfold eitherFromRequest bytesToAorB
    simp [hb, ha, hbo]
  · intro bytes ea eb hb ha hbo
    unfold eitherFromRequest bytesToAorB
    simp [hb, ha, hbo]

/-- C5 witness: at concrete extractors where both branches fail, the result
is the composite error carrying both errors. -/
theorem C5_either_extraction_cases_witness :
    eitherFromRequest (fun (_ : Unit) (n : Nat) => (.ok n : Except Nat Nat))
        (fun _ n => (.error (n + 1) : Except Nat Nat))
        (fun _ n => (.error (n + 2) : Except Nat Nat))
        (fun b => b) () 40 = .error (.Extract 41 42) :=
  (C5_either_extraction_cases Unit Nat Nat Nat Nat Nat Nat Nat
      (fun _ n => .ok n) (fun _ n => .error (n + 1)) (fun _ n => .error (n + 2))
      (fun b => b) () 40).2.2.2 40 41 42 rfl rfl rfl

/-- C8: the conditional middleware built with the flag clear is the inner
service wrapped in `Disable`, whose readiness and per-request outcome are
those of the un-wrapped inner service; built with the flag set it is exactly
the inner transform's construction mapped through `Enable`, and an `Enable`
wrapper delegates readiness and calls to the wrapped middleware unchanged. -/
theorem C8_condition_middleware_behavior
    (Ctx Req Resp Err InitErr : Type)
    (trans : MTransform Ctx Req Resp Err InitErr)
    (service : MService Ctx Req Resp Err) :
    (conditionNewTransform false trans service = .ok (.Disable service)) ∧
    (∀ cx, conditionPollReady (.Disable service) cx = service.pollReady cx) ∧
    (∀ req, conditionCall (.Disable service) req = service.call req) ∧
    (conditionNewTransform true trans service =
      (trans.newTransform service).map ConditionMiddleware.Enable) ∧
    (∀ (w : MService Ctx Req Resp Err) cx,
      conditionPollReady (.Enable w) cx = w.pollReady cx) ∧
    (∀ (w : MService Ctx Req Resp Err) req,
      conditionCall (.Enable w) req = w.call req) := by
  refine ⟨rfl, fun cx => rfl, fun req => rfl, ?_, fun w cx => rfl,
    fun w req => rfl⟩
  unfold conditionNewTransform
  cases h : trans.newTransform service <;> simp [h, Except.map]

/-- C10: converting a failed `Either` extraction's composite error into the
uniform error yields the payload-buffering error from the `Bytes` arm and the
primary extractor's converted error from the `Extract` arm; the fallback
error and its conversion never influence the result. -/
theorem C10_composite_error_conversion_discards_fallback
    (Err EA EB : Type) (fa : EA → Err) (fb fb2 : EB → Err)
    (e : Err) (a : EA) (b b2 : EB) :
    (EitherExtractError.intoError fa fb
      (.Bytes e : EitherExtractError Err EA EB) = e) ∧
    (EitherExtractError.intoError fa fb
      (.Extract a b : EitherExtractError Err EA EB) = fa a) ∧
    (EitherExtractError.intoError fa fb
        (.Extract a b : EitherExtractError Err EA EB) =
      EitherExtractError.intoError fa fb2
        (.Extract a b2 : EitherExtractError Err EA EB)) :=
  ⟨rfl, rfl, rfl⟩

/-- C6 counterexample: a well-formed form request declaring content-length
40000 under configured limit 10000 is rejected with an overflow error carrying
the declared size and the decoder ceiling 32768 — not the configured limit
10000 that the claim names ("an overflow error carrying the declared size and
the limit"). -/
theorem C6_declared_limit_counterexample :
    (urlEncodedRun deTrivial ((UrlEncoded.new
        { contentType := "application/x-www-form-urlencoded",
          encoding := some .utf8, contentLength := some "40000" }).limit 10000)
        [] = .error (.Overflow 40000 32768)) ∧
    ¬ (urlEncodedRun deTrivial ((UrlEncoded.new
        { contentType := "application/x-www-form-urlencoded",
          encoding := some .utf8, contentLength := some "40000" }).limit 10000)
        [] = .error (.Overflow 40000 10000)) := by
  have hpos : urlEncodedRun deTrivial ((UrlEncoded.new
      { contentType := "application/x-www-form-urlencoded",
        encoding := some .utf8, contentLength := some "40000" }).limit 10000)
      [] = .error (.Overflow 40000 32768) := rfl
  refine ⟨hpos, fun h => ?_⟩
  rw [hpos] at h
  simp at h

/-- C6 (amended): a declared content-length exceeding the configured limit is
rejected before any byte of the stream is read (the outcome is the same for
every stream), with an overflow error carrying the declared size and the
limit whose check failed first — the decoder ceiling 32768 when the declared
size exceeds it, otherwise the configured limit; and a body with no declared
length is rejected at the first chunk that pushes the running total past the
configured limit, with the would-be total and the configured limit in the
error, regardless of the remaining stream. -/
theorem C6_form_size_limit
    (U : Type) (de : Deserializer U) (enc : TextEncoding) (ct s : String)
    (declared configured : Nat)
    (hct : ct.data.map Char.toLower = "application/x-www-form-urlencoded".data)
    (hcl : parseUsize s.data = some declared) :
    (∀ (chunks : List (List UInt8)), declared > configured →
      urlEncodedRun de ((UrlEncoded.new
          { contentType := ct, encoding := some enc,
            contentLength := some s }).limit configured) chunks =
        .error (.Overflow declared
          (if declared > 32768 then 32768 else configured))) ∧
    (∀ (pre : List (List UInt8)) (c : List UInt8) (post : List (List UInt8)),
      (∀ i, i < pre.length → sumLen (List.take (i + 1) pre) ≤ configured) →
      sumLen pre + c.length > configured →
      urlEncodedRun de ((UrlEncoded.new
          { contentType := ct, encoding := some enc,
            contentLength := none }).limit configured) (pre ++ c :: post) =
        .error (.Overflow (sumLen pre + c.length) configured)) := by
  constructor
  · intro chunks hgt
    unfold UrlEncoded.new
    simp only [hct, ne_eq, not_true_eq_false, if_false]
    by_cases hd : declared > 32768
    · simp [hcl, hd, UrlEncoded.limit, urlEncodedRun]
    · simp [hcl, hd, UrlEncoded.limit, urlEncodedRun, hgt]
  · intro pre c post hpre hover
    have hbody : (UrlEncoded.new
        { contentType := ct, encoding := some enc,
          contentLength := none }).limit configured =
        .Body configured none enc [] := by
      unfold UrlEncoded.new UrlEncoded.limit
      simp [hct]
    rw [hbody]
    unfold urlEncodedRun
    have h := urlEncodedLoop_overflow U de configured enc pre [] c post
      (by simpa using hpre) (by simpa using hover)
    simpa using h

/-- C6 witness: a declared length of 20000 under the default limit 16384 is
rejected eagerly with the declared size and the configured limit. -/
theorem C6_form_size_limit_witness :
    urlEncodedRun deTrivial ((UrlEncoded.new
        { contentType := "application/x-www-form-urlencoded",
          encoding := some .utf8, contentLength := some "20000" }).limit 16384)
        [] = .error (.Overflow 20000 16384) := by
  have h := (C6_form_size_limit Unit deTrivial .utf8
      "application/x-www-form-urlencoded" "20000" 20000 16384
      (by decide) (by decide)).1 [] (by decide)
  simpa using h

/-- C7 counterexample: under a configured limit of 50000 a streamed body of
40000 bytes with no declared length is accepted by the decoder (it reaches
the final decode and succeeds), although 40000 exceeds the smaller of the
configured limit and the 32768 ceiling — so the smaller of the two does not
govern streamed bodies. -/
theorem C7_streamed_ceiling_counterexample :
    (urlEncodedRun deTrivial ((UrlEncoded.new
        { contentType := "application/x-www-form-urlencoded",
          encoding := some .utf8, contentLength := none }).limit 50000)
        [List.replicate 40000 (0 : UInt8)] = .ok ()) ∧
    ¬ (40000 ≤ min 50000 32768) := by
  constructor
  · have hbody : (UrlEncoded.new
        { contentType := "application/x-www-form-urlencoded",
          encoding := some .utf8, contentLength := none }).limit 50000 =
        .Body 50000 none .utf8 [] := by decide
    rw [hbody]
    show urlEncodedLoop deTrivial 50000 .utf8 []
      [List.replicate 40000 (0 : UInt8)] = .ok ()
    unfold urlEncodedLoop
    rw [if_neg (by rw [List.length_replicate, List.length_nil]; omega)]
    unfold urlEncodedLoop
    rfl
  · decide

/-- C7 (amended): the default configured limit is 16384 and the decoder-level
ceiling is 32768; a body with a declared content-length passes the eager size
checks exactly when the declared size is at most the smaller of the
configured limit and the ceiling; but a body with no declared length is
governed by the configured limit alone — a single-chunk stream reaches the
final decode exactly when its length is at most the configured limit, with no
ceiling check. -/
theorem C7_form_limits
    (Err U : Type) (de : Deserializer U) (enc : TextEncoding) (ct s : String)
    (declared configured : Nat)
    (hct : ct.data.map Char.toLower = "application/x-www-form-urlencoded".data)
    (hcl : parseUsize s.data = some declared) :
    ((FormConfig.mkDefault : FormConfig Err).limit = 16384) ∧
    ((UrlEncoded.new
        { contentType := ct, encoding := some enc,
          contentLength := some s }).limit configured =
      .Body configured (some declared) enc [] ↔
        declared ≤ min configured 32768) ∧
    ((UrlEncoded.new
        { contentType := ct, encoding := some enc,
          contentLength := none }).limit configured =
      .Body configured none enc []) ∧
    (∀ (c : List UInt8), c.length ≤ configured →
      urlEncodedRun de ((UrlEncoded.new
          { contentType := ct, encoding := some enc,
            contentLength := none }).limit configured)
        [c] = urlEncodedDecode de enc c) ∧
    (∀ (c : List UInt8), c.length > configured →
      urlEncodedRun de ((UrlEncoded.new
          { contentType := ct, encoding := some enc,
            contentLength := none }).limit configured)
        [c] = .error (.Overflow c.length configured)) := by
  have hnolen : (UrlEncoded.new
      { contentType := ct, encoding := some enc,
        contentLength := none }).limit configured =
      .Body configured none enc [] := by
    unfold UrlEncoded.new UrlEncoded.limit
    simp [hct]
  refine ⟨rfl, ?_, hnolen, ?_, ?_⟩
  · simp only [le_min_iff]
    unfold UrlEncoded.new
    simp only [hct, ne_eq, not_true_eq_false, if_false, hcl]
    by_cases hd : declared > 32768
    · rw [if_pos hd]
      constructor
      · intro h
        unfold UrlEncoded.limit at h
        exact UrlEncoded.noConfusion h
      · intro h
        omega
    · rw [if_neg hd]
      unfold UrlEncoded.limit
      show (if declared > configured then
          UrlEncoded.Error (UrlencodedError.Overflow declared configured)
        else UrlEncoded.Body configured (some declared) enc []) =
          UrlEncoded.Body configured (some declared) enc [] ↔
        declared ≤ configured ∧ declared ≤ 32768
      by_cases hc : declared > configured
      · rw [if_pos hc]
        constructor
        · intro h
          exact UrlEncoded.noConfusion h
        · intro h
          omega
      · rw [if_neg hc]
        constructor
        · intro _
          omega
        · intro _
          rfl
  · intro c hc
    rw [hnolen]
    unfold urlEncodedRun urlEncodedLoop
    rw [if_neg (by simpa using Nat.not_lt.mpr hc)]
    unfold urlEncodedLoop
    rw [List.nil_append]
  · intro c hc
    rw [hnolen]
    unfold urlEncodedRun urlEncodedLoop
    rw [if_pos (by simpa using hc)]
    simp

/-- C7 witness: under configured limit 100, a 101-byte streamed chunk is
rejected with the total and the configured limit. -/
theorem C7_form_limits_witness :
    urlEncodedRun deTrivial ((UrlEncoded.new
        { contentType := "application/x-www-form-urlencoded",
          encoding := some .utf8, contentLength := none }).limit 100)
        [List.replicate 101 (0 : UInt8)] = .error (.Overflow 101 100) := by
  have h := (C7_form_limits Unit Unit deTrivial .utf8
      "application/x-www-form-urlencoded" "0" 0 100
      (by decide) (by decide)).2.2.2.2 (List.replicate 101 0) (by simp)
  simpa using h

/-- UTF-8 bytes of `v=` followed by `n` copies of `a`. -/
theorem utf8Bytes_va (n : Nat) :
    utf8Bytes ("v=" ++ String.mk (List.replicate n 'a')) =
      118 :: 61 :: List.replicate n 97 := by
  have h : ("v=" ++ String.mk (List.replicate n 'a')).data =
      'v' :: '=' :: List.replicate n 'a' := by
    rw [String.data_append]
    rfl
  unfold utf8Bytes
  rw [h, List.map_cons, List.map_cons, List.map_replicate]
  have hv : utf8EncodeChar 'v' = [118] := by decide
  have he : utf8EncodeChar '=' = [61] := by decide
  have ha : utf8EncodeChar 'a' = [97] := by decide
  rw [hv, he, ha, List.flatten_cons, List.flatten_cons,
    flatten_replicate_singleton]
  rfl

/-- `deV` decodes `v=` followed by `n` ASCII `a` bytes to the `n`-fold `a`
string. -/
theorem deV_fromBytes_va (n : Nat) :
    deV.fromBytes (118 :: 61 :: List.replicate n 97) =
      some (String.mk (List.replicate n 'a')) := by
  show (if (118 : UInt8) = 118 ∧ (61 : UInt8) = 61 ∧
      (List.replicate n (97 : UInt8)).all (fun b => b.toNat < 128) then
      some (String.mk ((List.replicate n (97 : UInt8)).map
        (fun b => Char.ofNat b.toNat)))
    else none) = some (String.mk (List.replicate n 'a'))
  rw [if_pos ⟨rfl, rfl, all_replicate_of_pred n 97 _ (by decide)⟩]
  rw [List.map_replicate]
  have : Char.ofNat (97 : UInt8).toNat = 'a' := by decide
  rw [this]

/-- `formFromRequest` under the default configuration, expressed by the
outcome of the underlying `UrlEncoded` run with the default limit 16384. -/
theorem formFromRequest_none_run (Err U : Type)
    (intoErr : UrlencodedError → Err) (de : Deserializer U)
    (req : FormRequest) (chunks : List (List UInt8)) :
    formFromRequest none intoErr de req chunks =
      (match urlEncodedRun de ((UrlEncoded.new req).limit 16384) chunks with
      | .ok item => .ok { val := item }
      | .error e => .error (intoErr e)) := by
  cases hcase : urlEncodedRun de ((UrlEncoded.new req).limit 16384) chunks with
  | ok item => simp only [formFromRequest, hcase]
  | error e => simp only [formFromRequest, hcase]

/-- C9 counterexample: the value consisting of 20000 `a` characters is fully
representable — the serializer produces its URL-encoded form and the
deserializer recovers the value from those very bytes — yet the responder →
extractor round trip fails: the serialized body is 20002 bytes, the extractor
runs under the default 16384-byte limit, and extraction rejects with an
overflow instead of returning the value. -/
theorem C9_roundtrip_size_counterexample :
    (serV (String.mk (List.replicate 20000 'a')) =
      some ("v=" ++ String.mk (List.replicate 20000 'a'))) ∧
    (deV.fromBytes (utf8Bytes ("v=" ++ String.mk (List.replicate 20000 'a'))) =
      some (String.mk (List.replicate 20000 'a'))) ∧
    (formRoundTrip serV deV (String.mk (List.replicate 20000 'a')) =
      .error (.urlencoded (.Overflow 20002 16384))) ∧
    (formRoundTrip serV deV (String.mk (List.replicate 20000 'a')) ≠
      .ok { val := String.mk (List.replicate 20000 'a') }) := by
  have hde : deV.fromBytes
      (utf8Bytes ("v=" ++ String.mk (List.replicate 20000 'a'))) =
      some (String.mk (List.replicate 20000 'a')) := by
    rw [utf8Bytes_va]
    exact deV_fromBytes_va 20000
  have hlen : (utf8Bytes ("v=" ++ String.mk (List.replicate 20000 'a'))).length
      = 20002 := by
    rw [utf8Bytes_va, List.length_cons, List.length_cons,
      List.length_replicate]
  have hbody : (UrlEncoded.new
      { contentType := "application/x-www-form-urlencoded",
        encoding := some .utf8, contentLength := none }).limit 16384 =
      .Body 16384 none .utf8 [] := by decide
  have hrun : urlEncodedRun deV ((UrlEncoded.new
      { contentType := "application/x-www-form-urlencoded",
        encoding := some .utf8, contentLength := none }).limit 16384)
      [utf8Bytes ("v=" ++ String.mk (List.replicate 20000 'a'))] =
      .error (.Overflow 20002 16384) := by
    rw [hbody]
    show urlEncodedLoop deV 16384 .utf8 []
      [utf8Bytes ("v=" ++ String.mk (List.replicate 20000 'a'))] = _
    unfold urlEncodedLoop
    rw [if_pos (by rw [List.length_nil, hlen]; omega)]
    rw [List.length_nil, hlen]
  have hrt : formRoundTrip serV deV (String.mk (List.replicate 20000 'a')) =
      .error (.urlencoded (.Overflow 20002 16384)) := by
    have hstep : formRoundTrip serV deV (String.mk (List.replicate 20000 'a')) =
        formFromRequest none FormError.urlencoded deV
          { contentType := "application/x-www-form-urlencoded",
            encoding := some .utf8, contentLength := none }
          [utf8Bytes ("v=" ++ String.mk (List.replicate 20000 'a'))] := rfl
    rw [hstep, formFromRequest_none_run, hrun]
  refine ⟨rfl, hde, hrt, ?_⟩
  rw [hrt]
  exact fun h => Except.noConfusion h

/-- C9 (amended): the responder → extractor round trip returns the original
value for every representable value whose serialized body fits within the
extractor's configured size limit (here the default, 16384 bytes):
serialization succeeds, the responder's content type is accepted by the
extractor, the body bytes pass through unchanged, and deserialization
recovers the value. -/
theorem C9_form_roundtrip
    (U : Type) (ser : U → Option String) (de : Deserializer U) (v : U)
    (s : String)
    (hser : ser v = some s)
    (hde : de.fromBytes (utf8Bytes s) = some v)
    (hlen : (utf8Bytes s).length ≤ 16384) :
    formRoundTrip ser de v = .ok { val := v } := by
  have hbody : (UrlEncoded.new
      { contentType := "application/x-www-form-urlencoded",
        encoding := some .utf8, contentLength := none }).limit 16384 =
      .Body 16384 none .utf8 [] := by decide
  have hrun : urlEncodedRun de ((UrlEncoded.new
      { contentType := "application/x-www-form-urlencoded",
        encoding := some .utf8, contentLength := none }).limit 16384)
      [utf8Bytes s] = .ok v := by
    rw [hbody]
    show urlEncodedLoop de 16384 .utf8 [] [utf8Bytes s] = .ok v
    unfold urlEncodedLoop
    rw [if_neg (by rw [List.length_nil]; omega)]
    show urlEncodedDecode de .utf8 ([] ++ utf8Bytes s) = .ok v
    unfold urlEncodedDecode
    rw [List.nil_append, hde]
  have hrespond : formRespondTo ser ({ val := v } : Form U) =
      .ok { status := 200,
            contentType := "application/x-www-form-urlencoded",
            body := s } := by
    unfold formRespondTo
    rw [hser]
  unfold formRoundTrip
  rw [hrespond]
  show formFromRequest none FormError.urlencoded de
      { contentType := "application/x-www-form-urlencoded",
        encoding := some .utf8, contentLength := none } [utf8Bytes s] =
    .ok { val := v }
  rw [formFromRequest_none_run, hrun]

/-- C9 witness: a concrete tiny value round-trips through the responder and
the extractor. -/
theorem C9_form_roundtrip_witness :
    formRoundTrip (fun _ : Unit => some "")
      { fromBytes := fun bs => if bs = [] then some () else none,
        fromStr := fun _ => none, charsetDecode := fun _ => none } () =
      .ok { val := () } :=
  C9_form_roundtrip Unit (fun _ => some "")
    { fromBytes := fun bs => if bs = [] then some () else none,
      fromStr := fun _ => none, charsetDecode := fun _ => none } () ""
    rfl (by decide) (by decide)

end ActixWeb
